import Mathlib

/-!
Shallow embedding of the event broadcast hub of mulchd
(src/cmd/mulchd/libvirt.go: Hub, HubClient, NewHub, Hub.Run,
Hub.Broadcast, Hub.Register, HubClient.Unregister).

The Hub runs a single dispatch loop (Hub.Run) that repeatedly selects on
three unbuffered intake channels (register, unregister, broadcast), so
all requests are processed one at a time in a single total order.  We
model that order as a list of requests and the loop as a step function.

A HubClient delivery channel (client.Messages, unbuffered) is modelled
by the list of messages successfully handed over to its consumer plus a
closed flag.  A non-blocking send on an unbuffered Go channel (select
with a default branch) succeeds exactly when the consumer is currently
blocked in a receive on that channel; each broadcast request therefore
carries the set of client ids whose consumer is ready at fan-out time.

The Go map h.clients holds pointers to the active clients.  We key
clients by allocation id and keep every allocated client in one list
with an active flag: membership of the Go map is active = true,
delete(h.clients, c) sets active to false, and close(c.Messages) sets
closed to true.  Allocation ids stand for the distinct heap pointers
that Hub.Register produces.
-/

namespace Mulch

/-- Modelled from the spec: the mulch.Message kind enumeration (package
mulch is not part of src/); Trace, Info, Warning, Error in increasing
severity.  The Hub never inspects it. -/
inductive MessageKind where
  | Trace
  | Info
  | Warning
  | Error
  deriving Repr, DecidableEq

/-- Modelled from the spec: a mulch.Message value with kind, origin and
text (package mulch is not part of src/).  The Hub moves message
pointers around without ever reading the fields. -/
structure Message where
  kind : MessageKind
  origin : String
  text : String
  deriving Repr, DecidableEq

/-- One HubClient as allocated by Hub.Register.  The delivery channel
client.Messages is modelled by the list of messages its consumer has
been handed, oldest first, together with a closed flag; ClientInfo is
the diagnostic label.  The active flag models membership of the Go map
h.clients owned by the dispatch loop. -/
structure HubClient where
  Messages : List Message
  ClientInfo : String
  closed : Bool
  active : Bool
  deriving Repr, DecidableEq

/-- A fresh HubClient as built by Hub.Register (empty channel, label,
channel not closed) and marked active by the register case of Hub.Run
(h.clients[client] = true). -/
def newHubClient (info : String) : HubClient :=
  { Messages := [], ClientInfo := info, closed := false, active := true }

/-- Hub state: every client ever allocated, keyed by allocation id.
The Go map h.clients is the sublist of clients with active = true. -/
structure HubState where
  clients : List (Nat × HubClient)
  deriving Repr, DecidableEq

/-- NewHub starts with an empty client map. -/
def initHub : HubState := { clients := [] }

/-- One request arriving on one of the three intake channels of the
Hub, in the total order produced by the select loop of Hub.Run.  A
broadcast carries the ids of the clients whose consumer is currently
blocked receiving on its unbuffered Messages channel; for these, and
only these, the non-blocking send in the broadcast case succeeds. -/
inductive HubReq where
  | register (id : Nat) (info : String)
  | unregister (id : Nat)
  | broadcast (m : Message) (ready : List Nat)
  deriving Repr, DecidableEq

/-- Look up the client with a given allocation id. -/
def HubState.lookup (s : HubState) (id : Nat) : Option HubClient :=
  (s.clients.find? (fun p => p.1 == id)).map (fun p => p.2)

/-- Whether the client with this id is in the Go map h.clients. -/
def HubState.isActive (s : HubState) (id : Nat) : Bool :=
  match s.lookup id with
  | some c => c.active
  | none => false

/-- Whether close(client.Messages) has happened for this id. -/
def HubState.isClosed (s : HubState) (id : Nat) : Bool :=
  match s.lookup id with
  | some c => c.closed
  | none => false

/-- The messages handed to the consumer of the client with this id so
far, oldest first (its delivery stream). -/
def HubState.received (s : HubState) (id : Nat) : List Message :=
  match s.lookup id with
  | some c => c.Messages
  | none => []

/-- Effect of the register case of Hub.Run (h.clients[client] = true) on
one stored client: the client with the registered id is marked active,
every other client is untouched. -/
def regClient (id : Nat) (k : Nat) (c : HubClient) : HubClient :=
  if k == id then { c with active := true } else c

/-- Register case of Hub.Run.  Hub.Register always sends a freshly
allocated client, so normally the id is new and the client is added; if
the id were already known, the map assignment would only re-mark it
active. -/
def hubRegister (s : HubState) (id : Nat) (info : String) : HubState :=
  if (s.clients.find? (fun p => p.1 == id)).isSome then
    { clients := s.clients.map (fun p => (p.1, regClient id p.1 p.2)) }
  else
    { clients := s.clients ++ [(id, newHubClient info)] }

/-- Effect of the unregister case of Hub.Run on one stored client: if
the client is the requested one and is in the map, it is deleted from
the map and its Messages channel is closed; otherwise nothing happens. -/
def unregClient (id : Nat) (k : Nat) (c : HubClient) : HubClient :=
  if k == id && c.active then { c with active := false, closed := true } else c

/-- Unregister case of Hub.Run. -/
def hubUnregister (s : HubState) (id : Nat) : HubState :=
  { clients := s.clients.map (fun p => (p.1, unregClient id p.1 p.2)) }

/-- Effect of one iteration of the fan-out loop in the broadcast case
of Hub.Run on one stored client: clients outside the map are not
visited; for a visited client the non-blocking send either succeeds
(consumer ready: the message is handed over) or fails, in which case
the channel is closed and the client deleted from the map. -/
def fanClient (m : Message) (ready : List Nat) (k : Nat) (c : HubClient) : HubClient :=
  if c.active then
    if ready.contains k then { c with Messages := c.Messages ++ [m] }
    else { c with active := false, closed := true }
  else c

/-- Broadcast case of Hub.Run: one non-blocking send attempt per client
in the map, evicting the ones whose consumer is not ready. -/
def hubBroadcast (s : HubState) (m : Message) (ready : List Nat) : HubState :=
  { clients := s.clients.map (fun p => (p.1, fanClient m ready p.1 p.2)) }

/-- One iteration of the select loop of Hub.Run. -/
def step (s : HubState) : HubReq → HubState
  | .register id info => hubRegister s id info
  | .unregister id => hubUnregister s id
  | .broadcast m ready => hubBroadcast s m ready

/-- The dispatch loop processing a serialized request list. -/
def run (s : HubState) : List HubReq → HubState
  | [] => s
  | r :: rs => run (step s r) rs

/-- The payloads of the broadcast requests of a request list, in intake
order. -/
def broadcastMsgs : List HubReq → List Message
  | [] => []
  | HubReq.register _ _ :: rs => broadcastMsgs rs
  | HubReq.unregister _ :: rs => broadcastMsgs rs
  | HubReq.broadcast m _ :: rs => m :: broadcastMsgs rs

/-- Capacity of the three intake channels made by NewHub: make(chan T)
with no size argument, i.e. zero buffering. -/
def hubIntakeCapacity : Nat := 0

/-- Whether a send on a Go channel with the given capacity and current
buffer occupancy can complete right now: either the buffer has room, or
a receiver is ready for a direct handoff. -/
def sendCanComplete (capacity buffered : Nat) (receiverReady : Bool) : Bool :=
  decide (buffered < capacity) || receiverReady

/-- Hub safety invariant: every client in the Go map (active) has a
Messages channel that has never been closed. -/
def hubInv (s : HubState) : Bool :=
  s.clients.all (fun p => !p.2.active || !p.2.closed)

/-- A request is fresh for a state when a register request carries an
id never allocated in that state.  Hub.Register always allocates a
fresh client object, so every request order the API can produce is
fresh at each step. -/
def freshReq (s : HubState) : HubReq → Bool
  | .register id _ => (s.clients.find? (fun p => p.1 == id)).isNone
  | _ => true

/-- Freshness of every register request along a run. -/
def freshRun (s : HubState) : List HubReq → Bool
  | [] => true
  | r :: rs => freshReq s r && freshRun (step s r) rs

/-- No register request for this id occurs in the list. -/
def noRegisterOf (id : Nat) : List HubReq → Bool
  | [] => true
  | HubReq.register j _ :: rs => !(j == id) && noRegisterOf id rs
  | HubReq.unregister _ :: rs => noRegisterOf id rs
  | HubReq.broadcast _ _ :: rs => noRegisterOf id rs

/-- The client with this id never stalls and is never interfered with
along the request list: its consumer is ready at every broadcast, it is
never unregistered, and its id is never re-registered. -/
def promptFor (id : Nat) : List HubReq → Bool
  | [] => true
  | HubReq.register j _ :: rs => !(j == id) && promptFor id rs
  | HubReq.unregister j :: rs => !(j == id) && promptFor id rs
  | HubReq.broadcast _ ready :: rs => ready.contains id && promptFor id rs

/-- Diagnostic label used in concrete scenarios. -/
def labA : String := "observerA"

/-- Diagnostic label used in concrete scenarios. -/
def labB : String := "observerB"

/-- A concrete message used in concrete scenarios. -/
def msgA : Message := { kind := MessageKind.Info, origin := labA, text := labA }

/-- A second, distinct concrete message used in concrete scenarios. -/
def msgB : Message := { kind := MessageKind.Error, origin := labB, text := labB }

/-- Concrete scenario: msgA is broadcast, then client 0 registers, then
msgB is broadcast with client 0 ready. -/
def lateJoinReqs : List HubReq :=
  [HubReq.broadcast msgA [], HubReq.register 0 labA, HubReq.broadcast msgB [0]]

/-- Concrete scenario: a hub whose only client has been evicted by a
broadcast it was not ready for. -/
def evictedHub : HubState :=
  run initHub [HubReq.register 0 labA, HubReq.broadcast msgA []]

/-- Concrete scenario for a prompt subscriber: two broadcasts it is
ready for, with an unrelated registration in between. -/
def promptReqs : List HubReq :=
  [HubReq.broadcast msgA [0], HubReq.register 1 labB, HubReq.broadcast msgB [0, 1]]

/-- Concrete scenario: one hundred registrations. -/
def regHundred : List HubReq :=
  (List.range 100).map (fun i => HubReq.register i labA)

/-- Concrete scenario: the hub with one hundred registered clients. -/
def hubHundred : HubState := run initHub regHundred

/-- Concrete scenario: all one hundred consumers ready. -/
def readyHundred : List Nat := List.range 100

/-- Concrete scenario used for the safety-invariant witness. -/
def safetyReqs : List HubReq :=
  [HubReq.register 0 labA, HubReq.register 1 labB, HubReq.broadcast msgA [0],
    HubReq.unregister 1, HubReq.unregister 1, HubReq.broadcast msgB []]

/-- Mapping an entry-wise, key-preserving function over the client list
commutes with find? on a key predicate. -/
theorem find?_map_entry (g : Nat → HubClient → HubClient)
    (l : List (Nat × HubClient)) (id : Nat) :
    (l.map (fun p => (p.1, g p.1 p.2))).find? (fun p => p.1 == id)
      = (l.find? (fun p => p.1 == id)).map (fun p => (p.1, g p.1 p.2)) := by
  induction l with
  | nil => rfl
  | cons a l ih =>
    cases h : (a.1 == id) with
    | true => simp [List.find?, h]
    | false => simp [List.find?, h, ih]

/-- Lookup after an entry-wise, key-preserving map applies the update
function at the looked-up key. -/
theorem lookup_map_entry (g : Nat → HubClient → HubClient)
    (s : HubState) (id : Nat) :
    HubState.lookup { clients := s.clients.map (fun p => (p.1, g p.1 p.2)) } id
      = (s.lookup id).map (g id) := by
  unfold HubState.lookup
  rw [find?_map_entry]
  cases hf : s.clients.find? (fun p => p.1 == id) with
  | none => rfl
  | some a =>
    have ha := List.find?_some hf
    have hid : a.1 = id := by simpa using ha
    simp [hid]

theorem lookup_hubBroadcast (s : HubState) (m : Message) (ready : List Nat) (id : Nat) :
    (hubBroadcast s m ready).lookup id = (s.lookup id).map (fanClient m ready id) :=
  lookup_map_entry (fanClient m ready) s id

theorem lookup_hubUnregister (s : HubState) (j id : Nat) :
    (hubUnregister s j).lookup id = (s.lookup id).map (unregClient j id) :=
  lookup_map_entry (unregClient j) s id

theorem find?_eq_none_of_lookup (s : HubState) (id : Nat)
    (h : s.lookup id = none) :
    s.clients.find? (fun p => p.1 == id) = none := by
  unfold HubState.lookup at h
  cases hf : s.clients.find? (fun p => p.1 == id) with
  | none => rfl
  | some a => rw [hf] at h; simp at h

theorem lookup_hubRegister_fresh (s : HubState) (id : Nat) (info : String)
    (h : s.lookup id = none) :
    (hubRegister s id info).lookup id = some (newHubClient info) := by
  have hf := find?_eq_none_of_lookup s id h
  simp [hubRegister, hf, HubState.lookup, List.find?_append, List.find?]

theorem lookup_hubRegister_ne (s : HubState) (id : Nat) (info : String) (j : Nat)
    (hne : j ≠ id) :
    (hubRegister s id info).lookup j = s.lookup j := by
  by_cases hf : (s.clients.find? (fun p => p.1 == id)).isSome = true
  · have hl := lookup_map_entry (regClient id) s j
    simp only [hubRegister, if_pos hf]
    rw [hl]
    cases s.lookup j with
    | none => rfl
    | some c => simp [regClient, hne]
  · simp only [hubRegister, if_neg hf]
    unfold HubState.lookup
    rw [List.find?_append]
    cases hg : s.clients.find? (fun p => p.1 == j) with
    | some a => simp
    | none =>
      have hij : (id == j) = false := beq_eq_false_iff_ne.mpr (Ne.symm hne)
      simp [List.find?, hij]

/-- Registration never changes any delivery stream: a fresh client
starts with an empty one, and re-marking an existing client active
leaves its Messages untouched. -/
theorem received_hubRegister (s : HubState) (id : Nat) (info : String) (j : Nat) :
    (hubRegister s id info).received j = s.received j := by
  by_cases hj : j = id
  · subst hj
    by_cases hn : s.lookup j = none
    · unfold HubState.received
      rw [lookup_hubRegister_fresh s j info hn, hn]
      rfl
    · have hf : (s.clients.find? (fun p => p.1 == j)).isSome = true := by
        unfold HubState.lookup at hn
        cases hg : s.clients.find? (fun p => p.1 == j) with
        | none => rw [hg] at hn; simp at hn
        | some a => rfl
      have hl := lookup_map_entry (regClient j) s j
      unfold HubState.received
      simp only [hubRegister, if_pos hf]
      rw [hl]
      cases s.lookup j with
      | none => rfl
      | some c => simp [regClient]
  · unfold HubState.received
    rw [lookup_hubRegister_ne s id info j hj]

/-- Unregistration never changes any delivery stream (it only closes
and removes). -/
theorem received_hubUnregister (s : HubState) (j id : Nat) :
    (hubUnregister s j).received id = s.received id := by
  unfold HubState.received
  rw [lookup_hubUnregister]
  cases s.lookup id with
  | none => rfl
  | some c => by_cases h : (id == j && c.active) = true <;> simp [unregClient, h]

/-- A broadcast either appends its message to a delivery stream or
leaves it unchanged. -/
theorem received_hubBroadcast (s : HubState) (m : Message) (ready : List Nat) (id : Nat) :
    (hubBroadcast s m ready).received id = s.received id
    ∨ (hubBroadcast s m ready).received id = s.received id ++ [m] := by
  unfold HubState.received
  rw [lookup_hubBroadcast]
  cases s.lookup id with
  | none => left; rfl
  | some c =>
    by_cases ha : c.active = true
    · cases hr : ready.contains id with
      | true =>
        have hm : id ∈ ready := List.mem_of_elem_eq_true hr
        right; simp [fanClient, ha, hm]
      | false =>
        have hm : id ∉ ready := fun h => by
          have := List.elem_eq_true_of_mem h
          rw [show List.elem id ready = ready.contains id from rfl, hr] at this
          exact Bool.false_ne_true this
        left; simp [fanClient, ha, hm]
    · left; simp [fanClient, ha]

/-- Mapping a function that fixes every element of a list is the
identity. -/
theorem map_self_of_eq {α : Type} (l : List α) (f : α → α)
    (h : ∀ a ∈ l, f a = a) : l.map f = l := by
  conv_rhs => rw [← List.map_id l]
  exact List.map_congr_left h

/-- The delivery stream of a looked-up client is its Messages list. -/
theorem received_of_lookup (s : HubState) (id : Nat) (c : HubClient)
    (h : s.lookup id = some c) : s.received id = c.Messages := by
  unfold HubState.received
  rw [h]

/-- An active id is backed by a stored client marked active. -/
theorem isActive_lookup (s : HubState) (id : Nat) (h : s.isActive id = true) :
    ∃ c, s.lookup id = some c ∧ c.active = true := by
  unfold HubState.isActive at h
  cases hl : s.lookup id with
  | none => rw [hl] at h; simp at h
  | some c => rw [hl] at h; exact ⟨c, rfl, h⟩

theorem contains_eq_false_of_not_mem (l : List Nat) (a : Nat) (h : a ∉ l) :
    l.contains a = false := by
  cases hc : l.contains a with
  | false => rfl
  | true => exact absurd (List.mem_of_elem_eq_true hc) h

theorem not_mem_of_contains_eq_false (l : List Nat) (a : Nat)
    (h : l.contains a = false) : a ∉ l := by
  intro hm
  have hx := List.elem_eq_true_of_mem hm
  rw [show List.elem a l = l.contains a from rfl, h] at hx
  exact Bool.false_ne_true hx

/-- Along any request list, a delivery stream only grows by some
subsequence of the broadcast payloads, in broadcast order. -/
theorem received_run_sublist (reqs : List HubReq) :
    ∀ s id, ∃ t, (run s reqs).received id = s.received id ++ t
      ∧ List.Sublist t (broadcastMsgs reqs) := by
  induction reqs with
  | nil =>
    intro s id
    exact ⟨[], by simp [run], List.nil_sublist _⟩
  | cons r rs ih =>
    intro s id
    obtain ⟨t, ht, hsub⟩ := ih (step s r) id
    cases r with
    | register j info =>
      refine ⟨t, ?_, hsub⟩
      simp only [run] at ht ⊢
      rw [ht]
      simp [step, received_hubRegister]
    | unregister j =>
      refine ⟨t, ?_, hsub⟩
      simp only [run] at ht ⊢
      rw [ht]
      simp [step, received_hubUnregister]
    | broadcast m ready =>
      rcases received_hubBroadcast s m ready id with hb | hb
      · refine ⟨t, ?_, List.Sublist.cons m hsub⟩
        simp only [run] at ht ⊢
        rw [ht]
        simp only [step] at hb ⊢
        rw [hb]
      · refine ⟨m :: t, ?_, List.cons_sublist_cons.mpr hsub⟩
        simp only [run] at ht ⊢
        rw [ht]
        simp only [step] at hb ⊢
        rw [hb]
        simp

/-- A client outside the Go map whose id is never re-registered stays
frozen: its stored state (in particular its closed channel and its
delivery stream) never changes again. -/
theorem inactive_lookup_run (rest : List HubReq) :
    ∀ s id c, s.lookup id = some c → c.active = false →
      noRegisterOf id rest = true → (run s rest).lookup id = some c := by
  induction rest with
  | nil =>
    intro s id c h _ _
    simpa [run] using h
  | cons r rs ih =>
    intro s id c h hc hn
    cases r with
    | register j info =>
      obtain ⟨hj, hrest⟩ : (!(j == id)) = true ∧ noRegisterOf id rs = true := by
        simpa only [noRegisterOf, Bool.and_eq_true] using hn
      have hne : id ≠ j := by
        intro he
        rw [he] at hj
        simp at hj
      refine ih (step s (.register j info)) id c ?_ hc hrest
      rw [show step s (.register j info) = hubRegister s j info from rfl,
        lookup_hubRegister_ne s j info id hne]
      exact h
    | unregister j =>
      have hrest : noRegisterOf id rs = true := hn
      refine ih (step s (.unregister j)) id c ?_ hc hrest
      rw [show step s (.unregister j) = hubUnregister s j from rfl,
        lookup_hubUnregister, h]
      simp [unregClient, hc]
    | broadcast m ready =>
      have hrest : noRegisterOf id rs = true := hn
      refine ih (step s (.broadcast m ready)) id c ?_ hc hrest
      rw [show step s (.broadcast m ready) = hubBroadcast s m ready from rfl,
        lookup_hubBroadcast, h]
      simp [fanClient, hc]

/-- A client in the Go map that never stalls and is never interfered
with stays in the map and is handed every broadcast payload, in intake
order. -/
theorem prompt_run (reqs : List HubReq) :
    ∀ s id c, s.lookup id = some c → c.active = true → promptFor id reqs = true →
      ∃ c2, (run s reqs).lookup id = some c2 ∧ c2.active = true
        ∧ c2.Messages = c.Messages ++ broadcastMsgs reqs := by
  induction reqs with
  | nil =>
    intro s id c h hc _
    exact ⟨c, by simpa [run] using h, hc, by simp [broadcastMsgs]⟩
  | cons r rs ih =>
    intro s id c h hc hp
    cases r with
    | register j info =>
      obtain ⟨hj, hrest⟩ : (!(j == id)) = true ∧ promptFor id rs = true := by
        simpa only [promptFor, Bool.and_eq_true] using hp
      have hne : id ≠ j := by
        intro he
        rw [he] at hj
        simp at hj
      have h2 : (step s (.register j info)).lookup id = some c := by
        rw [show step s (.register j info) = hubRegister s j info from rfl,
          lookup_hubRegister_ne s j info id hne]
        exact h
      obtain ⟨c2, hl, ha, hm⟩ := ih (step s (.register j info)) id c h2 hc hrest
      exact ⟨c2, hl, ha, by rw [hm]; simp [broadcastMsgs]⟩
    | unregister j =>
      obtain ⟨hj, hrest⟩ : (!(j == id)) = true ∧ promptFor id rs = true := by
        simpa only [promptFor, Bool.and_eq_true] using hp
      have hne : (id == j) = false := by
        cases hij : (id == j) with
        | false => rfl
        | true =>
          have : id = j := by simpa using hij
          rw [this] at hj
          simp at hj
      have h2 : (step s (.unregister j)).lookup id = some c := by
        rw [show step s (.unregister j) = hubUnregister s j from rfl,
          lookup_hubUnregister, h]
        simp [unregClient, hne]
      obtain ⟨c2, hl, ha, hm⟩ := ih (step s (.unregister j)) id c h2 hc hrest
      exact ⟨c2, hl, ha, by rw [hm]; simp [broadcastMsgs]⟩
    | broadcast m ready =>
      obtain ⟨hj, hrest⟩ : ready.contains id = true ∧ promptFor id rs = true := by
        simpa only [promptFor, Bool.and_eq_true] using hp
      have h2 : (step s (.broadcast m ready)).lookup id
          = some { c with Messages := c.Messages ++ [m] } := by
        rw [show step s (.broadcast m ready) = hubBroadcast s m ready from rfl,
          lookup_hubBroadcast, h]
        simp [fanClient, hc, List.mem_of_elem_eq_true hj]
      obtain ⟨c2, hl, ha, hm⟩ :=
        ih (step s (.broadcast m ready)) id { c with Messages := c.Messages ++ [m] } h2 hc hrest
      refine ⟨c2, hl, ha, ?_⟩
      rw [hm]
      simp [broadcastMsgs]

/-- One dispatch step preserves the safety invariant, provided a
register request carries a fresh id (as Hub.Register guarantees). -/
theorem hubInv_step (s : HubState) (r : HubReq)
    (hI : hubInv s = true) (hF : freshReq s r = true) :
    hubInv (step s r) = true := by
  have hI2 : ∀ p ∈ s.clients, (!p.2.active || !p.2.closed) = true :=
    List.all_eq_true.mp hI
  cases r with
  | register j info =>
    have hf : s.clients.find? (fun p => p.1 == j) = none := by
      simpa only [freshReq, Option.isNone_iff_eq_none] using hF
    simp only [step, hubRegister, hf, Option.isSome_none, Bool.false_eq_true, if_false]
    rw [hubInv, List.all_append, Bool.and_eq_true]
    exact ⟨hI, by simp [newHubClient]⟩
  | unregister j =>
    simp only [step, hubUnregister, hubInv, List.all_map]
    rw [List.all_eq_true]
    intro p hp
    by_cases hcnd : (p.1 == j && p.2.active) = true
    · simp [Function.comp, unregClient, hcnd]
    · simp only [Function.comp, unregClient, hcnd, if_false, Bool.false_eq_true]
      simpa using hI2 p hp
  | broadcast m ready =>
    simp only [step, hubBroadcast, hubInv, List.all_map]
    rw [List.all_eq_true]
    intro p hp
    by_cases ha : p.2.active = true
    · by_cases hm : p.1 ∈ ready
      · have hcl : p.2.closed = false := by
          have := hI2 p hp
          rw [ha] at this
          simpa using this
        simp [Function.comp, fanClient, ha, hm, hcl]
      · simp [Function.comp, fanClient, ha, hm]
    · simp [Function.comp, fanClient, ha]

/-- The safety invariant holds in every state the dispatch loop can
reach through fresh registrations. -/
theorem hubInv_run (reqs : List HubReq) :
    ∀ s, hubInv s = true → freshRun s reqs = true → hubInv (run s reqs) = true := by
  induction reqs with
  | nil =>
    intro s h _
    simpa [run] using h
  | cons r rs ih =>
    intro s h hf
    obtain ⟨h1, h2⟩ : freshReq s r = true ∧ freshRun (step s r) rs = true := by
      simpa only [freshRun, Bool.and_eq_true] using hf
    exact ih (step s r) (hubInv_step s r h h1) h2

/-- C1: a broadcast processed by the dispatch loop makes exactly one
non-blocking enqueue attempt per client in the active set, in one pass
over the map; a client whose consumer is ready gets the message
appended and keeps its place, any other active client has its channel
closed and is removed from the set in the same pass; the fan-out is a
total function of the state, never failing towards the producer; and a
freshly registered client that never reads is evicted, with its queue
closed, on the very next broadcast after its registration is
processed. -/
theorem C1_broadcast_fanout :
    (∀ s m ready, (hubBroadcast s m ready).clients
        = s.clients.map (fun p => (p.1, fanClient m ready p.1 p.2)))
  ∧ (∀ s m ready p, p ∈ s.clients → p.2.active = true → p.1 ∈ ready →
      (p.1, { p.2 with Messages := p.2.Messages ++ [m] })
        ∈ (hubBroadcast s m ready).clients)
  ∧ (∀ s m ready p, p ∈ s.clients → p.2.active = true → p.1 ∉ ready →
      (p.1, { p.2 with active := false, closed := true })
        ∈ (hubBroadcast s m ready).clients)
  ∧ (∀ s id info m ready, s.lookup id = none → id ∉ ready →
      (hubBroadcast (hubRegister s id info) m ready).lookup id
        = some { Messages := [], ClientInfo := info, closed := true, active := false }) := by
  refine ⟨fun s m ready => rfl, ?_, ?_, ?_⟩
  · intro s m ready p hp ha hm
    refine List.mem_map.mpr ⟨p, hp, ?_⟩
    simp [fanClient, ha, hm]
  · intro s m ready p hp ha hm
    refine List.mem_map.mpr ⟨p, hp, ?_⟩
    simp [fanClient, ha, hm]
  · intro s id info m ready h hm
    rw [lookup_hubBroadcast, lookup_hubRegister_fresh s id info h]
    simp [fanClient, newHubClient, hm]

/-- C1 witness: a client registered on a fresh hub and never reading is
evicted, with a closed queue, by the very next broadcast. -/
theorem C1_broadcast_fanout_witness :
    (hubBroadcast (hubRegister initHub 0 labA) msgA []).lookup 0
      = some { Messages := [], ClientInfo := labA, closed := true, active := false } :=
  C1_broadcast_fanout.2.2.2 initHub 0 labA msgA [] (by decide) (by decide)

/-- C2 counterexample: with M1 = msgA broadcast first and M2 = msgB
broadcast after, the subscriber registered between the two broadcasts
receives M2 without ever receiving M1, while it was never evicted (its
queue was never closed and it is still in the active set); so the
claim that a subscriber receiving M2 must first receive M1 or have
been evicted is false on the code at this input. -/
theorem C2_ordering_counterexample :
    msgB ∈ (run initHub lateJoinReqs).received 0
    ∧ ¬ (msgA ∈ (run initHub lateJoinReqs).received 0
          ∨ (run initHub lateJoinReqs).isClosed 0 = true
          ∨ (run initHub lateJoinReqs).isActive 0 = false) := by
  decide

/-- C2 (amended): every delivery stream grows only by a subsequence of
the broadcast payloads taken in broadcast order, so a subscriber that
receives both M1 and M2 receives them in that order; a subscriber that
is in the active set when M1 is broadcast, and whose id is not
registered again afterwards, either receives nothing from that point
on or receives M1 as the very next message, so it never receives a
later M2 without first receiving M1 or being evicted at M1; and a
never-stalling subscriber registered before a sequence of broadcasts
observes exactly the broadcast payloads in order. -/
theorem C2_ordering :
    (∀ s reqs id, ∃ t, (run s reqs).received id = s.received id ++ t
        ∧ List.Sublist t (broadcastMsgs reqs))
  ∧ (∀ s id m1 r1 rest, s.isActive id = true → noRegisterOf id rest = true →
      (run s (HubReq.broadcast m1 r1 :: rest)).received id = s.received id
      ∨ ∃ t, (run s (HubReq.broadcast m1 r1 :: rest)).received id
          = s.received id ++ m1 :: t)
  ∧ (∀ s id info reqs, s.lookup id = none → promptFor id reqs = true →
      (run (hubRegister s id info) reqs).received id = broadcastMsgs reqs) := by
  refine ⟨fun s reqs id => received_run_sublist reqs s id, ?_, ?_⟩
  · intro s id m1 r1 rest hact hnoreg
    obtain ⟨c, hl, ha⟩ := isActive_lookup s id hact
    have hrecv := received_of_lookup s id c hl
    cases hr : r1.contains id with
    | true =>
      right
      have h1 : (step s (HubReq.broadcast m1 r1)).lookup id
          = some { c with Messages := c.Messages ++ [m1] } := by
        rw [show step s (HubReq.broadcast m1 r1) = hubBroadcast s m1 r1 from rfl,
          lookup_hubBroadcast, hl]
        simp [fanClient, ha, List.mem_of_elem_eq_true hr]
      obtain ⟨t, ht, _⟩ := received_run_sublist rest (step s (HubReq.broadcast m1 r1)) id
      refine ⟨t, ?_⟩
      have h2 := received_of_lookup _ id _ h1
      simp only [run] at ht ⊢
      rw [ht, h2, hrecv]
      simp
    | false =>
      left
      have hnm : id ∉ r1 := not_mem_of_contains_eq_false r1 id hr
      have h1 : (step s (HubReq.broadcast m1 r1)).lookup id
          = some { c with active := false, closed := true } := by
        rw [show step s (HubReq.broadcast m1 r1) = hubBroadcast s m1 r1 from rfl,
          lookup_hubBroadcast, hl]
        simp [fanClient, ha, hnm]
      have h2 := inactive_lookup_run rest (step s (HubReq.broadcast m1 r1)) id
        { c with active := false, closed := true } h1 rfl hnoreg
      simp only [run]
      rw [received_of_lookup _ id _ h2, hrecv]
  · intro s id info reqs h hp
    have h1 := lookup_hubRegister_fresh s id info h
    obtain ⟨c2, hl, _, hm⟩ :=
      prompt_run reqs (hubRegister s id info) id (newHubClient info) h1 rfl hp
    rw [received_of_lookup _ id _ hl, hm]
    simp [newHubClient]

/-- C2 witness: a prompt subscriber registered first observes exactly
the broadcast payloads of the subsequent requests, in order. -/
theorem C2_ordering_witness :
    (run (hubRegister initHub 0 labA) promptReqs).received 0
      = broadcastMsgs promptReqs :=
  C2_ordering.2.2 initHub 0 labA promptReqs (by decide) (by decide)

/-- C3: an unregister request for a client with no active entry leaves
the hub state literally unchanged (a no-op, never an error); for an
active client it removes it from the active set and closes its queue,
keeping its delivery stream; and unregistering twice is the same as
unregistering once. -/
theorem C3_unregister_idempotent :
    (∀ s id, (∀ p ∈ s.clients, p.1 = id → p.2.active = false) →
      hubUnregister s id = s)
  ∧ (∀ s id p, p ∈ s.clients → p.1 = id → p.2.active = true →
      (p.1, { p.2 with active := false, closed := true })
        ∈ (hubUnregister s id).clients)
  ∧ (∀ s id, hubUnregister (hubUnregister s id) id = hubUnregister s id) := by
  refine ⟨?_, ?_, ?_⟩
  · intro s id h
    obtain ⟨l⟩ := s
    show ({ clients := l.map (fun p => (p.1, unregClient id p.1 p.2)) } : HubState)
      = { clients := l }
    rw [map_self_of_eq l _ (fun p hp => ?_)]
    by_cases he : p.1 = id
    · have := h p hp he
      simp [unregClient, this]
    · have hne : (p.1 == id) = false := beq_eq_false_iff_ne.mpr he
      simp [unregClient, hne]
  · intro s id p hp he ha
    refine List.mem_map.mpr ⟨p, hp, ?_⟩
    have hb : (p.1 == id) = true := by simpa using he
    simp [unregClient, hb, ha]
  · intro s id
    have hmap : ((hubUnregister s id).clients).map
        (fun p => (p.1, unregClient id p.1 p.2)) = (hubUnregister s id).clients := by
      apply map_self_of_eq
      intro p hp
      obtain ⟨q, hqm, hq⟩ := List.mem_map.mp hp
      subst hq
      by_cases he : q.1 = id
      · subst he
        by_cases hc : q.2.active = true
        · simp [unregClient, hc]
        · have hcf : q.2.active = false := by simpa using hc
          simp [unregClient, hcf]
      · have hne : (q.1 == id) = false := beq_eq_false_iff_ne.mpr he
        simp [unregClient, hne]
    exact congrArg HubState.mk hmap

/-- C3 witness: unregistering the already evicted client of the
concrete hub changes nothing. -/
theorem C3_unregister_idempotent_witness :
    hubUnregister evictedHub 0 = evictedHub :=
  C3_unregister_idempotent.1 evictedHub 0 (by decide)

/-- C4: a client id unknown to the hub at the start of a request list
only ever receives a subsequence of the payloads broadcast during that
list, so it never receives a message broadcast before its
registration, and its delivery stream (like every stream, a per-client
field) contains nothing that was not broadcast while it was present. -/
theorem C4_no_crosstalk_late_join :
    ∀ s id reqs, s.lookup id = none →
      List.Sublist ((run s reqs).received id) (broadcastMsgs reqs)
      ∧ ∀ m, m ∉ broadcastMsgs reqs → m ∉ (run s reqs).received id := by
  intro s id reqs h
  obtain ⟨t, ht, hsub⟩ := received_run_sublist reqs s id
  have h0 : s.received id = [] := by
    unfold HubState.received
    rw [h]
  rw [ht, h0]
  simp only [List.nil_append]
  exact ⟨hsub, fun m hm hmem => hm (hsub.subset hmem)⟩

/-- C4 witness: the late joiner of the concrete scenario receives only
a subsequence of what is broadcast after the scenario starts, and in
particular never the message broadcast before it registered. -/
theorem C4_no_crosstalk_late_join_witness :
    List.Sublist ((run initHub lateJoinReqs).received 0) (broadcastMsgs lateJoinReqs)
    ∧ ∀ m, m ∉ broadcastMsgs lateJoinReqs → m ∉ (run initHub lateJoinReqs).received 0 :=
  C4_no_crosstalk_late_join initHub 0 lateJoinReqs (by decide)

/-- C5: a processed registration puts the client in the active set, and
any broadcast processed later, i.e. any broadcast submitted after the
Register call returned, attempts delivery to that client as long as it
has not been evicted or unregistered in between (it is still active):
if its consumer is ready it is handed the message, otherwise this very
broadcast evicts it. -/
theorem C5_register_visible_to_later_broadcasts :
    (∀ s id info, (hubRegister s id info).isActive id = true)
  ∧ (∀ s id info mid m ready,
      (run (hubRegister s id info) mid).isActive id = true →
      (id ∈ ready →
        (hubBroadcast (run (hubRegister s id info) mid) m ready).received id
          = (run (hubRegister s id info) mid).received id ++ [m])
      ∧ (id ∉ ready →
        (hubBroadcast (run (hubRegister s id info) mid) m ready).isActive id = false
        ∧ (hubBroadcast (run (hubRegister s id info) mid) m ready).isClosed id = true)) := by
  constructor
  · intro s id info
    unfold HubState.isActive
    cases hf : s.clients.find? (fun p => p.1 == id) with
    | none =>
      have hn : s.lookup id = none := by
        unfold HubState.lookup
        rw [hf]
        rfl
      rw [lookup_hubRegister_fresh s id info hn]
      rfl
    | some a =>
      have hs : (s.clients.find? (fun p => p.1 == id)).isSome = true := by
        rw [hf]
        rfl
      have hl : s.lookup id = some a.2 := by
        unfold HubState.lookup
        rw [hf]
        rfl
      simp only [hubRegister, hs, if_true]
      rw [lookup_map_entry (regClient id) s id, hl]
      simp [regClient]
  · intro s id info mid m ready hact
    obtain ⟨c, hl, ha⟩ := isActive_lookup _ id hact
    constructor
    · intro hm
      have h1 : (hubBroadcast (run (hubRegister s id info) mid) m ready).lookup id
          = some { c with Messages := c.Messages ++ [m] } := by
        rw [lookup_hubBroadcast, hl]
        simp [fanClient, ha, hm]
      rw [received_of_lookup _ id _ h1, received_of_lookup _ id _ hl]
    · intro hm
      have h1 : (hubBroadcast (run (hubRegister s id info) mid) m ready).lookup id
          = some { c with active := false, closed := true } := by
        rw [lookup_hubBroadcast, hl]
        simp [fanClient, ha, hm]
      constructor
      · unfold HubState.isActive
        rw [h1]
      · unfold HubState.isClosed
        rw [h1]

/-- C5 witness: on the concrete hub, the broadcast following a
registration delivers the message to the new client. -/
theorem C5_register_visible_witness :
    (hubBroadcast (run (hubRegister initHub 0 labA) []) msgA [0]).received 0
      = (run (hubRegister initHub 0 labA) []).received 0 ++ [msgA] :=
  (C5_register_visible_to_later_broadcasts.2 initHub 0 labA [] msgA [0] (by decide)).1
    (by decide)

/-- C6: the intake channels made by NewHub have capacity zero, so a
send on them can complete exactly when the dispatcher is ready to
receive: Broadcast cannot return before the dispatch loop accepts the
request; and once accepted, the fan-out pass completes as a pure state
update even when not a single consumer is ready, so the dispatcher
never waits for delivery to any subscriber. -/
theorem C6_broadcast_backpressure :
    (∀ buffered receiverReady,
      sendCanComplete hubIntakeCapacity buffered receiverReady = receiverReady)
  ∧ (∀ s m, (hubBroadcast s m []).clients.length = s.clients.length) := by
  constructor
  · intro b r
    simp [sendCanComplete, hubIntakeCapacity, Nat.not_lt_zero]
  · intro s m
    simp [hubBroadcast]

/-- C7: when every client of the active set is ready to receive, a
single broadcast hands exactly one copy of the message to every active
client and leaves every inactive record untouched: no duplicate and no
missing delivery, whatever the number of registered clients. -/
theorem C7_single_broadcast_exactly_once :
    ∀ s m ready, (∀ p ∈ s.clients, p.2.active = true → p.1 ∈ ready) →
      (hubBroadcast s m ready).clients
        = s.clients.map (fun p =>
            if p.2.active = true
            then (p.1, { p.2 with Messages := p.2.Messages ++ [m] })
            else p) := by
  intro s m ready h
  show s.clients.map (fun p => (p.1, fanClient m ready p.1 p.2)) = _
  apply List.map_congr_left
  intro p hp
  by_cases ha : p.2.active = true
  · have hm := h p hp ha
    simp [fanClient, ha, hm]
  · simp [fanClient, ha]

set_option maxRecDepth 100000 in
/-- C7 witness: with one hundred registered clients all ready, one
broadcast appends exactly one copy of the message to each of the
hundred delivery queues. -/
theorem C7_single_broadcast_exactly_once_witness :
    (hubBroadcast hubHundred msgA readyHundred).clients
      = hubHundred.clients.map (fun p =>
          if p.2.active = true
          then (p.1, { p.2 with Messages := p.2.Messages ++ [msgA] })
          else p) :=
  C7_single_broadcast_exactly_once hubHundred msgA readyHundred (by decide)

/-- C8: a broadcast processed while the active set is empty (no stored
client is active) is a no-op that leaves the hub state literally
unchanged; it is never an error. -/
theorem C8_broadcast_empty_noop :
    ∀ s m ready, (∀ p ∈ s.clients, p.2.active = false) →
      hubBroadcast s m ready = s := by
  intro s m ready h
  have hmap : s.clients.map (fun p => (p.1, fanClient m ready p.1 p.2)) = s.clients :=
    map_self_of_eq _ _ (fun p hp => by simp [fanClient, h p hp])
  exact congrArg HubState.mk hmap

/-- C8 witness: broadcasting to the concrete hub whose only client was
evicted changes nothing. -/
theorem C8_broadcast_empty_noop_witness :
    hubBroadcast evictedHub msgB [] = evictedHub :=
  C8_broadcast_empty_noop evictedHub msgB [] (by decide)

/-- C9: processing the registration of a fresh client appends exactly
one new client record carrying an empty delivery queue, the given
diagnostic label and an open channel, leaving every existing record in
place; the Subscriber value handed back to the caller is this record,
built before the dispatch loop runs. -/
theorem C9_register_allocates_fresh :
    ∀ s id info, s.lookup id = none →
      (hubRegister s id info).clients = s.clients ++ [(id, newHubClient info)]
      ∧ (newHubClient info).Messages = []
      ∧ (newHubClient info).ClientInfo = info
      ∧ (newHubClient info).closed = false := by
  intro s id info h
  have hf := find?_eq_none_of_lookup s id h
  refine ⟨?_, rfl, rfl, rfl⟩
  simp [hubRegister, hf]

/-- C9 witness: registering client 0 on the empty hub. -/
theorem C9_register_allocates_fresh_witness :
    (hubRegister initHub 0 labA).clients = initHub.clients ++ [(0, newHubClient labA)]
    ∧ (newHubClient labA).Messages = []
    ∧ (newHubClient labA).ClientInfo = labA
    ∧ (newHubClient labA).closed = false :=
  C9_register_allocates_fresh initHub 0 labA (by decide)

/-- C10: in every state reachable through fresh registrations, every
client of the active set has a never-closed queue; a dispatch step
never touches a client whose queue is closed (so it never sends on a
closed channel and never closes one twice); and each of the three
per-client updates closes a queue only in the very step that also
removes the client from the active set. -/
theorem C10_no_closed_channel_use :
    hubInv initHub = true
  ∧ (∀ s r, hubInv s = true → freshReq s r = true → hubInv (step s r) = true)
  ∧ (∀ s reqs, hubInv s = true → freshRun s reqs = true →
      hubInv (run s reqs) = true)
  ∧ (∀ s r p, hubInv s = true → freshReq s r = true → p ∈ s.clients →
      p.2.closed = true → p ∈ (step s r).clients)
  ∧ (∀ j k c, (unregClient j k c).closed = true →
      c.closed = true ∨ (c.active = true ∧ (unregClient j k c).active = false))
  ∧ (∀ m ready k c, (fanClient m ready k c).closed = true →
      c.closed = true ∨ (c.active = true ∧ (fanClient m ready k c).active = false))
  ∧ (∀ id k c, (regClient id k c).closed = c.closed) := by
  refine ⟨rfl, hubInv_step, fun s reqs h hf => hubInv_run reqs s h hf, ?_, ?_, ?_, ?_⟩
  · intro s r p hI hF hp hcl
    have hI2 := List.all_eq_true.mp hI p hp
    have hact : p.2.active = false := by
      rw [hcl] at hI2
      simpa using hI2
    cases r with
    | register j info =>
      have hf : s.clients.find? (fun p => p.1 == j) = none := by
        simpa only [freshReq, Option.isNone_iff_eq_none] using hF
      simp only [step, hubRegister, hf, Option.isSome_none, Bool.false_eq_true, if_false]
      exact List.mem_append_left _ hp
    | unregister j =>
      refine List.mem_map.mpr ⟨p, hp, ?_⟩
      simp [unregClient, hact]
    | broadcast m ready =>
      refine List.mem_map.mpr ⟨p, hp, ?_⟩
      simp [fanClient, hact]
  · intro j k c h
    by_cases hc : (k == j && c.active) = true
    · right
      refine ⟨((Bool.and_eq_true _ _).mp hc).2, ?_⟩
      simp [unregClient, hc]
    · left
      simpa [unregClient, hc] using h
  · intro m ready k c h
    by_cases ha : c.active = true
    · by_cases hm : k ∈ ready
      · left
        simpa [fanClient, ha, hm] using h
      · right
        exact ⟨ha, by simp [fanClient, ha, hm]⟩
    · left
      simpa [fanClient, ha] using h
  · intro id k c
    by_cases h : (k == id) = true <;> simp [regClient, h]

/-- C10 witness: the invariant holds after the concrete request list
with registrations, a partial broadcast eviction and a double
unregistration. -/
theorem C10_no_closed_channel_use_witness :
    hubInv (run initHub safetyReqs) = true :=
  C10_no_closed_channel_use.2.2.1 initHub safetyReqs (by decide) (by decide)

end Mulch
